import Mathlib

/-!
Shallow embedding of `cloud/amazon/codedeploy_facts.py`: the query-dispatch
and parameter-validation layer of the CodeDeploy facts module.

The module's incoming parameters (`module.params`) are modelled as a mapping
from parameter name to an optional string value; Python truthiness of
`module.params.get(k)` (None and the empty string are falsy) is modelled by
`truthy`.  Each per-query builder function of the source is translated
one-to-one; `module.fail_json` terminates the invocation, which is modelled
by returning a validation error without performing any remote call.  The
remote boto3 client is an abstract collaborator: one operation name plus a
parameter mapping, returning an opaque result or raising with a message.
A `RunResult` records both the outcome and the list of remote invocations
attempted, so that "no remote call is attempted" is a provable statement.
-/

namespace CodedeployFacts

/-- The request parameter mapping `module.params`: parameter name to optional
string value.  Constructed by the external module framework; read-only here. -/
abbrev Params : Type := String → Option String

/-- Python truthiness of `module.params.get(k)`: `None` and the empty string
are falsy, every other string is truthy. -/
def truthy : Option String → Bool
  | none => false
  | some s => !(s == "")

/-- A remote-call parameter set: the `params` dict built by a builder, keys in
insertion order, each with its (possibly null) value, passed as `**params`. -/
abbrev CallParams : Type := List (String × Option String)

/-- The authenticated remote client: invoking a named operation with a
parameter mapping either returns a result or raises with a message. -/
structure Client (ρ : Type) where
  call : String → CallParams → Except String ρ

/-- How an invocation of the module can fail: a `module.fail_json` validation
failure, a raised remote-client error, or a query outside the enumeration. -/
inductive ModuleError where
  | validation (msg : String)
  | remote (msg : String)
  | unknownQuery (q : String)

/-- Outcome of one invocation: the result (or error), together with the list
of remote calls attempted, each recorded as (operation name, parameters). -/
structure RunResult (ρ : Type) where
  result : Except ModuleError ρ
  calls : List (String × CallParams)

/-- Perform the single remote call `client.op(**params)` and wrap its outcome:
a raised client error surfaces with its original message attached. -/
def invoke {ρ : Type} (client : Client ρ) (op : String) (ps : CallParams) :
    RunResult ρ :=
  match client.call op ps with
  | .ok r => ⟨.ok r, [(op, ps)]⟩
  | .error e => ⟨.error (.remote e), [(op, ps)]⟩

/-- `list_applications(client, module)` from the source: optional
`next_token` → `nextToken`, then `client.list_applications(**params)`. -/
def list_applications {ρ : Type} (client : Client ρ) (p : Params) :
    RunResult ρ :=
  let ps : CallParams := []
  let ps := if truthy (p "next_token") then ps ++ [("nextToken", p "next_token")] else ps
  invoke client "list_applications" ps

/-- `list_deployment_configs(client, module)` from the source: optional
`next_token` → `nextToken`, then `client.list_deployment_configs(**params)`. -/
def list_deployment_configs {ρ : Type} (client : Client ρ) (p : Params) :
    RunResult ρ :=
  let ps : CallParams := []
  let ps := if truthy (p "next_token") then ps ++ [("nextToken", p "next_token")] else ps
  invoke client "list_deployment_configs" ps

/-- `list_deployment_groups(client, module)` from the source: required
`application_name` → `applicationName` (else `fail_json`), optional
`next_token` → `nextToken`, then `client.list_deployment_groups(**params)`. -/
def list_deployment_groups {ρ : Type} (client : Client ρ) (p : Params) :
    RunResult ρ :=
  if truthy (p "application_name") then
    let ps : CallParams := [("applicationName", p "application_name")]
    let ps := if truthy (p "next_token") then ps ++ [("nextToken", p "next_token")] else ps
    invoke client "list_deployment_groups" ps
  else
    ⟨.error (.validation "application_name is required"), []⟩

/-- `list_deployment_instances(client, module)` from the source: required
`deployment_id` → `deploymentId` (else `fail_json`), optional
`instance_status_filter` → `instanceStatusFilter` and `next_token` →
`nextToken`, then `client.list_deployment_instances(**params)`. -/
def list_deployment_instances {ρ : Type} (client : Client ρ) (p : Params) :
    RunResult ρ :=
  if truthy (p "deployment_id") then
    let ps : CallParams := [("deploymentId", p "deployment_id")]
    let ps := if truthy (p "instance_status_filter") then ps ++ [("instanceStatusFilter", p "instance_status_filter")] else ps
    let ps := if truthy (p "next_token") then ps ++ [("nextToken", p "next_token")] else ps
    invoke client "list_deployment_instances" ps
  else
    ⟨.error (.validation "deployment_id is required"), []⟩

/-- `list_deployments(client, module)` from the source: the
`if / elif / elif` chain over the pair (`deployment_group_name`,
`application_name`) — both truthy sends both, exactly one truthy is a
`fail_json`, neither sends nothing — then optional `next_token` →
`nextToken`, then `client.list_deployments(**params)`. -/
def list_deployments {ρ : Type} (client : Client ρ) (p : Params) :
    RunResult ρ :=
  if truthy (p "deployment_group_name") && truthy (p "application_name") then
    let ps : CallParams := [("applicationName", p "application_name"), ("deploymentGroupName", p "deployment_group_name")]
    let ps := if truthy (p "next_token") then ps ++ [("nextToken", p "next_token")] else ps
    invoke client "list_deployments" ps
  else if truthy (p "deployment_group_name") && !truthy (p "application_name") then
    ⟨.error (.validation "application_name is required when deployment_group_name used"), []⟩
  else if !truthy (p "deployment_group_name") && truthy (p "application_name") then
    ⟨.error (.validation "deployment_group_name is required when application_name used"), []⟩
  else
    let ps : CallParams := []
    let ps := if truthy (p "next_token") then ps ++ [("nextToken", p "next_token")] else ps
    invoke client "list_deployments" ps

/-- `list_on_premises_instances(client, module)` from the source.  Note the
source's latent key mismatch, reproduced faithfully: the presence test reads
`registration_status` but the value stored under `registrationStatus` is read
from the differently spelled key `registration-status`. -/
def list_on_premises_instances {ρ : Type} (client : Client ρ) (p : Params) :
    RunResult ρ :=
  let ps : CallParams := []
  let ps := if truthy (p "registration_status") then ps ++ [("registrationStatus", p "registration-status")] else ps
  let ps := if truthy (p "next_token") then ps ++ [("nextToken", p "next_token")] else ps
  invoke client "list_on_premises_instances" ps

/-- The `choices` list declared for the `query` argument in `main`'s
`argument_spec`. -/
def queryChoices : List String :=
  ["list_applications", "list_deployment_configs", "list_deployment_groups",
   "list_deployment_instances", "list_deployments", "list_on_premises_instances"]

/-- Modelled from the spec: the external module framework (the `AnsibleModule`
argument parsing, which is not part of this repository) rejects a `query`
value outside the declared `choices` before any dispatch or remote call. -/
def queryAccepted (q : String) : Bool :=
  decide (q ∈ queryChoices)

/-- The `invocations` dispatch table of `main`: query name to builder. -/
def invocations (ρ : Type) : List (String × (Client ρ → Params → RunResult ρ)) :=
  [("list_applications", list_applications),
   ("list_deployment_configs", list_deployment_configs),
   ("list_deployment_groups", list_deployment_groups),
   ("list_deployment_instances", list_deployment_instances),
   ("list_deployments", list_deployments),
   ("list_on_premises_instances", list_on_premises_instances)]

/-- Lookup of `invocations[module.params.get('query')]` in `main`. -/
def lookupInvocation (ρ : Type) (q : String) :
    Option (Client ρ → Params → RunResult ρ) :=
  (invocations ρ).lookup q

/-- The dispatch step of `main`: a query value outside `choices` is rejected
at the boundary (see `queryAccepted`); otherwise the builder selected by the
`invocations` dict runs.  A failed dict lookup (Python's `KeyError`) is also
modelled as a rejection; the theorems below show it is unreachable for an
accepted query. -/
def mainRun (ρ : Type) (client : Client ρ) (q : String) (p : Params) :
    RunResult ρ :=
  if queryAccepted q then
    match lookupInvocation ρ q with
    | some f => f client p
    | none => ⟨.error (.unknownQuery q), []⟩
  else
    ⟨.error (.unknownQuery q), []⟩

/-- The request with no parameter set. -/
def emptyParams : Params := fun _ => none

/-- A client whose every call succeeds with the fixed result `r`. -/
def okClient {ρ : Type} (r : ρ) : Client ρ := ⟨fun _ _ => .ok r⟩

/-- A client whose every call raises with the fixed message `e`. -/
def errClient (ρ : Type) (e : String) : Client ρ := ⟨fun _ _ => .error e⟩

/-- The outcome of `invoke` always records exactly the one attempted call. -/
theorem invoke_calls {ρ : Type} (client : Client ρ) (op : String) (ps : CallParams) :
    (invoke client op ps).calls = [(op, ps)] := by
  unfold invoke
  rcases client.call op ps with r | e <;> rfl

/-- An `invoke` outcome is never a validation failure. -/
theorem invoke_not_validation {ρ : Type} (client : Client ρ) (op : String)
    (ps : CallParams) (m : String) :
    (invoke client op ps).result ≠ .error (.validation m) := by
  unfold invoke
  rcases client.call op ps with r | e <;> simp

/-- A raised client error surfaces from `invoke` with its message intact. -/
theorem invoke_result_error {ρ : Type} (client : Client ρ) {op : String}
    {ps : CallParams} {e : String} (h : client.call op ps = .error e) :
    (invoke client op ps).result = .error (.remote e) := by
  unfold invoke
  rw [h]

/-- A successful client result passes through `invoke` unmodified. -/
theorem invoke_result_ok {ρ : Type} (client : Client ρ) {op : String}
    {ps : CallParams} {r : ρ} (h : client.call op ps = .ok r) :
    (invoke client op ps).result = .ok r := by
  unfold invoke
  rw [h]

/-- C2: invoking each query kind with no other field set performs the remote
call with an empty parameter set for list_applications,
list_deployment_configs and list_on_premises_instances, and fails with the
missing-required-field validation message, with no remote call attempted, for
list_deployment_groups and list_deployment_instances. -/
theorem c2_bare_invocations : ∀ (ρ : Type) (client : Client ρ),
    mainRun ρ client "list_applications" emptyParams =
      invoke client "list_applications" [] ∧
    mainRun ρ client "list_deployment_configs" emptyParams =
      invoke client "list_deployment_configs" [] ∧
    mainRun ρ client "list_on_premises_instances" emptyParams =
      invoke client "list_on_premises_instances" [] ∧
    mainRun ρ client "list_deployment_groups" emptyParams =
      ⟨.error (.validation "application_name is required"), []⟩ ∧
    mainRun ρ client "list_deployment_instances" emptyParams =
      ⟨.error (.validation "deployment_id is required"), []⟩ := by
  intro ρ client
  exact ⟨rfl, rfl, rfl, rfl, rfl⟩

/-- The request of C5: deployment_id = "d-ABC",
instance_status_filter = "Succeeded", nothing else. -/
def reqC5 : Params := fun k =>
  if k = "deployment_id" then some "d-ABC"
  else if k = "instance_status_filter" then some "Succeeded"
  else none

/-- C5: list_deployment_instances with deployment_id = "d-ABC" and
instance_status_filter = "Succeeded" performs the remote call with exactly
deploymentId = "d-ABC" and instanceStatusFilter = "Succeeded". -/
theorem c5_deployment_instances_params : ∀ (ρ : Type) (client : Client ρ),
    mainRun ρ client "list_deployment_instances" reqC5 =
      invoke client "list_deployment_instances"
        [("deploymentId", some "d-ABC"), ("instanceStatusFilter", some "Succeeded")] := by
  intro ρ client
  rfl

/-- The failing request of C4: registration_status = "Registered" and nothing
else set (in particular, no key spelled "registration-status" exists among
the module's request parameters). -/
def reqC4 : Params := fun k =>
  if k = "registration_status" then some "Registered" else none

/-- C4: with registration_status = "Registered", the remote call carries the
key registrationStatus with a null value rather than "Registered", because
the source reads the value back from the differently spelled key
"registration-status", which is never set. -/
theorem c4_registration_status_value_lost : ∀ (ρ : Type) (client : Client ρ),
    mainRun ρ client "list_on_premises_instances" reqC4 =
      invoke client "list_on_premises_instances" [("registrationStatus", none)] := by
  intro ρ client
  rfl

/-- C8: a query value outside the enumerated choices is rejected with no
remote call attempted and no per-kind builder run; for a query inside the
choices, the dispatch-table lookup always succeeds. -/
theorem c8_unknown_query_rejected : ∀ (ρ : Type) (client : Client ρ) (p : Params) (q : String),
    if queryAccepted q = true then (lookupInvocation ρ q).isSome = true
    else mainRun ρ client q p = ⟨.error (.unknownQuery q), []⟩ := by
  intro ρ client p q
  by_cases h : queryAccepted q = true
  · rw [if_pos h]
    have hq : q ∈ queryChoices := of_decide_eq_true h
    simp only [queryChoices, List.mem_cons, List.mem_singleton, List.not_mem_nil, or_false] at hq
    rcases hq with h1 | h1 | h1 | h1 | h1 | h1 <;> subst h1 <;> rfl
  · rw [if_neg h]
    unfold mainRun
    rw [if_neg h]

/-- Whether the character list `pat` occurs at the head of `l`. -/
def listStartsWith : List Char → List Char → Bool
  | [], _ => true
  | _ :: _, [] => false
  | a :: as, b :: bs => a == b && listStartsWith as bs

/-- Whether the character list `pat` occurs contiguously anywhere in `l`. -/
def listHasSub (pat : List Char) : List Char → Bool
  | [] => listStartsWith pat []
  | b :: bs => listStartsWith pat (b :: bs) || listHasSub pat bs

/-- Whether `pat` occurs as a contiguous substring of `msg`. -/
def strHas (msg pat : String) : Bool :=
  listHasSub pat.toList msg.toList

/-- A "token-shaped" parameter key: one mentioning token (in either of the
two casings that occur in this API's naming conventions). -/
def tokenShaped (k : String) : Bool :=
  strHas k "token" || strHas k "Token"

/-- Dispatch on "list_applications" runs the list_applications builder. -/
theorem mainRun_eq_la (ρ : Type) (client : Client ρ) (p : Params) :
    mainRun ρ client "list_applications" p = list_applications client p := rfl

/-- Dispatch on "list_deployment_configs" runs its builder. -/
theorem mainRun_eq_ldc (ρ : Type) (client : Client ρ) (p : Params) :
    mainRun ρ client "list_deployment_configs" p = list_deployment_configs client p := rfl

/-- Dispatch on "list_deployment_groups" runs its builder. -/
theorem mainRun_eq_ldg (ρ : Type) (client : Client ρ) (p : Params) :
    mainRun ρ client "list_deployment_groups" p = list_deployment_groups client p := rfl

/-- Dispatch on "list_deployment_instances" runs its builder. -/
theorem mainRun_eq_ldi (ρ : Type) (client : Client ρ) (p : Params) :
    mainRun ρ client "list_deployment_instances" p = list_deployment_instances client p := rfl

/-- Dispatch on "list_deployments" runs its builder. -/
theorem mainRun_eq_ld (ρ : Type) (client : Client ρ) (p : Params) :
    mainRun ρ client "list_deployments" p = list_deployments client p := rfl

/-- Dispatch on "list_on_premises_instances" runs its builder. -/
theorem mainRun_eq_lopi (ρ : Type) (client : Client ρ) (p : Params) :
    mainRun ρ client "list_on_premises_instances" p = list_on_premises_instances client p := rfl

/-- The linked-pair rule for list_deployments as the spec words it: both
fields present sends exactly applicationName and deploymentGroupName (plus
nextToken when next_token is present); exactly one present fails naming the
missing companion field, with no call; both absent performs the call without
either key. -/
def list_deployments_pair_rule {ρ : Type} (client : Client ρ) (p : Params) :
    RunResult ρ :=
  match truthy (p "application_name"), truthy (p "deployment_group_name") with
  | true, true =>
      invoke client "list_deployments"
        ([("applicationName", p "application_name"),
          ("deploymentGroupName", p "deployment_group_name")] ++
          (if truthy (p "next_token") then [("nextToken", p "next_token")] else []))
  | true, false =>
      ⟨.error (.validation "deployment_group_name is required when application_name used"), []⟩
  | false, true =>
      ⟨.error (.validation "application_name is required when deployment_group_name used"), []⟩
  | false, false =>
      invoke client "list_deployments"
        (if truthy (p "next_token") then [("nextToken", p "next_token")] else [])

/-- C1: list_deployments follows the linked-pair rule — both fields present
sends exactly the two keys (plus nextToken only when next_token is present),
both absent calls without them, and a lone field fails with a validation
message that names the missing companion field. -/
theorem c1_list_deployments_linked_pair : ∀ (ρ : Type) (client : Client ρ) (p : Params),
    list_deployments client p = list_deployments_pair_rule client p ∧
    strHas "deployment_group_name is required when application_name used"
      "application_name" = true ∧
    strHas "application_name is required when deployment_group_name used"
      "deployment_group_name" = true := by
  intro ρ client p
  refine ⟨?_, by decide, by decide⟩
  unfold list_deployments list_deployments_pair_rule
  rcases ha : truthy (p "application_name") <;>
    rcases hd : truthy (p "deployment_group_name") <;>
      rcases ht : truthy (p "next_token") <;>
        simp [ha, hd, ht]

/-- C6: validation happens before the remote call — whenever an invocation
ends in a validation error, no remote call was attempted. -/
theorem c6_validation_before_remote : ∀ (ρ : Type) (client : Client ρ) (q : String)
    (p : Params) (m : String),
    (mainRun ρ client q p).result = .error (.validation m) →
    (mainRun ρ client q p).calls = [] := by
  intro ρ client q p m h
  by_cases hq : queryAccepted q = true
  · have hmem : q ∈ queryChoices := of_decide_eq_true hq
    simp only [queryChoices, List.mem_cons, List.mem_singleton, List.not_mem_nil,
      or_false] at hmem
    rcases hmem with h1 | h1 | h1 | h1 | h1 | h1 <;> subst h1
    · rw [mainRun_eq_la] at h
      exact absurd h (invoke_not_validation client "list_applications" _ m)
    · rw [mainRun_eq_ldc] at h
      exact absurd h (invoke_not_validation client "list_deployment_configs" _ m)
    · rw [mainRun_eq_ldg] at h ⊢
      rcases ha : truthy (p "application_name") <;>
        simp only [list_deployment_groups, ha, if_true, if_false, Bool.false_eq_true,
          Bool.true_eq_false, ite_true, ite_false] at h ⊢
      exact absurd h (invoke_not_validation client "list_deployment_groups" _ m)
    · rw [mainRun_eq_ldi] at h ⊢
      rcases hd : truthy (p "deployment_id") <;>
        simp only [list_deployment_instances, hd, if_true, if_false, Bool.false_eq_true,
          Bool.true_eq_false, ite_true, ite_false] at h ⊢
      exact absurd h (invoke_not_validation client "list_deployment_instances" _ m)
    · rw [mainRun_eq_ld] at h ⊢
      rcases hd : truthy (p "deployment_group_name") <;>
        rcases ha : truthy (p "application_name") <;>
          simp only [list_deployments, hd, ha, Bool.and_self, Bool.and_true, Bool.true_and,
            Bool.and_false, Bool.false_and, Bool.not_true, Bool.not_false,
            Bool.false_eq_true, Bool.true_eq_false, ite_true, ite_false] at h ⊢
      · exact absurd h (invoke_not_validation client "list_deployments" _ m)
      · exact absurd h (invoke_not_validation client "list_deployments" _ m)
    · rw [mainRun_eq_lopi] at h
      exact absurd h (invoke_not_validation client "list_on_premises_instances" _ m)
  · simp only [mainRun, hq, if_false, Bool.false_eq_true, ite_false]

/-- C7: a raised remote-client error propagates as a remote error carrying
the original message intact, and no successful result is returned. -/
theorem c7_remote_error_propagates : ∀ (ρ : Type) (client : Client ρ) (q : String)
    (p : Params) (c : String) (ps : CallParams) (e : String),
    (mainRun ρ client q p).calls = [(c, ps)] →
    client.call c ps = .error e →
    (mainRun ρ client q p).result = .error (.remote e) := by
  intro ρ client q p c ps e hcalls hclient
  by_cases hq : queryAccepted q = true
  · have hmem : q ∈ queryChoices := of_decide_eq_true hq
    simp only [queryChoices, List.mem_cons, List.mem_singleton, List.not_mem_nil,
      or_false] at hmem
    rcases hmem with h1 | h1 | h1 | h1 | h1 | h1 <;> subst h1
    · rw [mainRun_eq_la] at hcalls ⊢
      simp only [list_applications, invoke_calls, List.cons.injEq, Prod.mk.injEq,
        and_true] at hcalls
      obtain ⟨hc, hps⟩ := hcalls
      subst hc; subst hps
      exact invoke_result_error client hclient
    · rw [mainRun_eq_ldc] at hcalls ⊢
      simp only [list_deployment_configs, invoke_calls, List.cons.injEq, Prod.mk.injEq,
        and_true] at hcalls
      obtain ⟨hc, hps⟩ := hcalls
      subst hc; subst hps
      exact invoke_result_error client hclient
    · rw [mainRun_eq_ldg] at hcalls ⊢
      rcases ha : truthy (p "application_name")
      · simp only [list_deployment_groups, ha, Bool.false_eq_true, Bool.true_eq_false,
          ite_true, ite_false] at hcalls
        exact absurd hcalls (by simp)
      · simp only [list_deployment_groups, ha, Bool.false_eq_true, Bool.true_eq_false,
          ite_true, ite_false, invoke_calls, List.cons.injEq, Prod.mk.injEq,
          and_true] at hcalls ⊢
        obtain ⟨hc, hps⟩ := hcalls
        subst hc; subst hps
        exact invoke_result_error client hclient
    · rw [mainRun_eq_ldi] at hcalls ⊢
      rcases hd : truthy (p "deployment_id")
      · simp only [list_deployment_instances, hd, Bool.false_eq_true, Bool.true_eq_false,
          ite_true, ite_false] at hcalls
        exact absurd hcalls (by simp)
      · simp only [list_deployment_instances, hd, Bool.false_eq_true, Bool.true_eq_false,
          ite_true, ite_false, invoke_calls, List.cons.injEq, Prod.mk.injEq,
          and_true] at hcalls ⊢
        obtain ⟨hc, hps⟩ := hcalls
        subst hc; subst hps
        exact invoke_result_error client hclient
    · rw [mainRun_eq_ld] at hcalls ⊢
      rcases hd : truthy (p "deployment_group_name") <;>
        rcases ha : truthy (p "application_name")
      · simp only [list_deployments, hd, ha, Bool.and_self, Bool.and_true, Bool.true_and,
          Bool.and_false, Bool.false_and, Bool.not_true, Bool.not_false,
          Bool.false_eq_true, Bool.true_eq_false, ite_true, ite_false, invoke_calls,
          List.cons.injEq, Prod.mk.injEq, and_true] at hcalls ⊢
        obtain ⟨hc, hps⟩ := hcalls
        subst hc; subst hps
        exact invoke_result_error client hclient
      · simp only [list_deployments, hd, ha, Bool.and_self, Bool.and_true, Bool.true_and,
          Bool.and_false, Bool.false_and, Bool.not_true, Bool.not_false,
          Bool.false_eq_true, Bool.true_eq_false, ite_true, ite_false] at hcalls
        exact absurd hcalls (by simp)
      · simp only [list_deployments, hd, ha, Bool.and_self, Bool.and_true, Bool.true_and,
          Bool.and_false, Bool.false_and, Bool.not_true, Bool.not_false,
          Bool.false_eq_true, Bool.true_eq_false, ite_true, ite_false] at hcalls
        exact absurd hcalls (by simp)
      · simp only [list_deployments, hd, ha, Bool.and_self, Bool.and_true, Bool.true_and,
          Bool.and_false, Bool.false_and, Bool.not_true, Bool.not_false,
          Bool.false_eq_true, Bool.true_eq_false, ite_true, ite_false, invoke_calls,
          List.cons.injEq, Prod.mk.injEq, and_true] at hcalls ⊢
        obtain ⟨hc, hps⟩ := hcalls
        subst hc; subst hps
        exact invoke_result_error client hclient
    · rw [mainRun_eq_lopi] at hcalls ⊢
      simp only [list_on_premises_instances, invoke_calls, List.cons.injEq, Prod.mk.injEq,
        and_true] at hcalls
      obtain ⟨hc, hps⟩ := hcalls
      subst hc; subst hps
      exact invoke_result_error client hclient
  · exact absurd hcalls (by simp [mainRun, hq])

/-- C9: on a successful remote call the result is passed through to the
caller unmodified. -/
theorem c9_success_passthrough : ∀ (ρ : Type) (client : Client ρ) (q : String)
    (p : Params) (c : String) (ps : CallParams) (r : ρ),
    (mainRun ρ client q p).calls = [(c, ps)] →
    client.call c ps = .ok r →
    (mainRun ρ client q p).result = .ok r := by
  intro ρ client q p c ps r hcalls hclient
  by_cases hq : queryAccepted q = true
  · have hmem : q ∈ queryChoices := of_decide_eq_true hq
    simp only [queryChoices, List.mem_cons, List.mem_singleton, List.not_mem_nil,
      or_false] at hmem
    rcases hmem with h1 | h1 | h1 | h1 | h1 | h1 <;> subst h1
    · rw [mainRun_eq_la] at hcalls ⊢
      simp only [list_applications, invoke_calls, List.cons.injEq, Prod.mk.injEq,
        and_true] at hcalls
      obtain ⟨hc, hps⟩ := hcalls
      subst hc; subst hps
      exact invoke_result_ok client hclient
    · rw [mainRun_eq_ldc] at hcalls ⊢
      simp only [list_deployment_configs, invoke_calls, List.cons.injEq, Prod.mk.injEq,
        and_true] at hcalls
      obtain ⟨hc, hps⟩ := hcalls
      subst hc; subst hps
      exact invoke_result_ok client hclient
    · rw [mainRun_eq_ldg] at hcalls ⊢
      rcases ha : truthy (p "application_name")
      · simp only [list_deployment_groups, ha, Bool.false_eq_true, Bool.true_eq_false,
          ite_true, ite_false] at hcalls
        exact absurd hcalls (by simp)
      · simp only [list_deployment_groups, ha, Bool.false_eq_true, Bool.true_eq_false,
          ite_true, ite_false, invoke_calls, List.cons.injEq, Prod.mk.injEq,
          and_true] at hcalls ⊢
        obtain ⟨hc, hps⟩ := hcalls
        subst hc; subst hps
        exact invoke_result_ok client hclient
    · rw [mainRun_eq_ldi] at hcalls ⊢
      rcases hd : truthy (p "deployment_id")
      · simp only [list_deployment_instances, hd, Bool.false_eq_true, Bool.true_eq_false,
          ite_true, ite_false] at hcalls
        exact absurd hcalls (by simp)
      · simp only [list_deployment_instances, hd, Bool.false_eq_true, Bool.true_eq_false,
          ite_true, ite_false, invoke_calls, List.cons.injEq, Prod.mk.injEq,
          and_true] at hcalls ⊢
        obtain ⟨hc, hps⟩ := hcalls
        subst hc; subst hps
        exact invoke_result_ok client hclient
    · rw [mainRun_eq_ld] at hcalls ⊢
      rcases hd : truthy (p "deployment_group_name") <;>
        rcases ha : truthy (p "application_name")
      · simp only [list_deployments, hd, ha, Bool.and_self, Bool.and_true, Bool.true_and,
          Bool.and_false, Bool.false_and, Bool.not_true, Bool.not_false,
          Bool.false_eq_true, Bool.true_eq_false, ite_true, ite_false, invoke_calls,
          List.cons.injEq, Prod.mk.injEq, and_true] at hcalls ⊢
        obtain ⟨hc, hps⟩ := hcalls
        subst hc; subst hps
        exact invoke_result_ok client hclient
      · simp only [list_deployments, hd, ha, Bool.and_self, Bool.and_true, Bool.true_and,
          Bool.and_false, Bool.false_and, Bool.not_true, Bool.not_false,
          Bool.false_eq_true, Bool.true_eq_false, ite_true, ite_false] at hcalls
        exact absurd hcalls (by simp)
      · simp only [list_deployments, hd, ha, Bool.and_self, Bool.and_true, Bool.true_and,
          Bool.and_false, Bool.false_and, Bool.not_true, Bool.not_false,
          Bool.false_eq_true, Bool.true_eq_false, ite_true, ite_false] at hcalls
        exact absurd hcalls (by simp)
      · simp only [list_deployments, hd, ha, Bool.and_self, Bool.and_true, Bool.true_and,
          Bool.and_false, Bool.false_and, Bool.not_true, Bool.not_false,
          Bool.false_eq_true, Bool.true_eq_false, ite_true, ite_false, invoke_calls,
          List.cons.injEq, Prod.mk.injEq, and_true] at hcalls ⊢
        obtain ⟨hc, hps⟩ := hcalls
        subst hc; subst hps
        exact invoke_result_ok client hclient
    · rw [mainRun_eq_lopi] at hcalls ⊢
      simp only [list_on_premises_instances, invoke_calls, List.cons.injEq, Prod.mk.injEq,
        and_true] at hcalls
      obtain ⟨hc, hps⟩ := hcalls
      subst hc; subst hps
      exact invoke_result_ok client hclient
  · exact absurd hcalls (by simp [mainRun, hq])

/-- C3: every remote call attempted for a request supplying
next_token = "TOKEN123" carries nextToken = "TOKEN123" and no other
token-shaped key. -/
theorem c3_next_token_forwarded : ∀ (ρ : Type) (client : Client ρ) (q : String)
    (p : Params) (c : String) (ps : CallParams),
    p "next_token" = some "TOKEN123" →
    (c, ps) ∈ (mainRun ρ client q p).calls →
    ps.lookup "nextToken" = some (some "TOKEN123") ∧
    (∀ k v, (k, v) ∈ ps → k ≠ "nextToken" → tokenShaped k = false) := by
  intro ρ client q p c ps hnt hmem
  have ht : truthy (p "next_token") = true := by rw [hnt]; rfl
  by_cases hq : queryAccepted q = true
  · have hqm : q ∈ queryChoices := of_decide_eq_true hq
    simp only [queryChoices, List.mem_cons, List.mem_singleton, List.not_mem_nil,
      or_false] at hqm
    rcases hqm with h1 | h1 | h1 | h1 | h1 | h1 <;> subst h1
    · rw [mainRun_eq_la] at hmem
      simp [list_applications, ht, invoke_calls] at hmem
      obtain ⟨hc, hps⟩ := hmem
      subst hps
      rw [hnt]
      refine ⟨rfl, ?_⟩
      intro k v hkv hne
      simp only [List.mem_singleton, Prod.mk.injEq] at hkv
      exact absurd hkv.1 hne
    · rw [mainRun_eq_ldc] at hmem
      simp [list_deployment_configs, ht, invoke_calls] at hmem
      obtain ⟨hc, hps⟩ := hmem
      subst hps
      rw [hnt]
      refine ⟨rfl, ?_⟩
      intro k v hkv hne
      simp only [List.mem_singleton, Prod.mk.injEq] at hkv
      exact absurd hkv.1 hne
    · rw [mainRun_eq_ldg] at hmem
      rcases ha : truthy (p "application_name")
      · simp [list_deployment_groups, ha] at hmem
      · simp [list_deployment_groups, ha, ht, invoke_calls] at hmem
        obtain ⟨hc, hps⟩ := hmem
        subst hps
        rw [hnt]
        refine ⟨rfl, ?_⟩
        intro k v hkv hne
        simp only [List.mem_cons, List.mem_singleton, List.not_mem_nil, or_false,
          Prod.mk.injEq] at hkv
        rcases hkv with ⟨hk, hv⟩ | ⟨hk, hv⟩
        · subst hk; decide
        · exact absurd hk hne
    · rw [mainRun_eq_ldi] at hmem
      rcases hd : truthy (p "deployment_id")
      · simp [list_deployment_instances, hd] at hmem
      · rcases hisf : truthy (p "instance_status_filter")
        · simp [list_deployment_instances, hd, hisf, ht, invoke_calls] at hmem
          obtain ⟨hc, hps⟩ := hmem
          subst hps
          rw [hnt]
          refine ⟨rfl, ?_⟩
          intro k v hkv hne
          simp only [List.mem_cons, List.mem_singleton, List.not_mem_nil, or_false,
            Prod.mk.injEq] at hkv
          rcases hkv with ⟨hk, hv⟩ | ⟨hk, hv⟩
          · subst hk; decide
          · exact absurd hk hne
        · simp [list_deployment_instances, hd, hisf, ht, invoke_calls] at hmem
          obtain ⟨hc, hps⟩ := hmem
          subst hps
          rw [hnt]
          refine ⟨rfl, ?_⟩
          intro k v hkv hne
          simp only [List.mem_cons, List.mem_singleton, List.not_mem_nil, or_false,
            Prod.mk.injEq] at hkv
          rcases hkv with ⟨hk, hv⟩ | ⟨hk, hv⟩ | ⟨hk, hv⟩
          · subst hk; decide
          · subst hk; decide
          · exact absurd hk hne
    · rw [mainRun_eq_ld] at hmem
      rcases hd : truthy (p "deployment_group_name") <;>
        rcases ha : truthy (p "application_name")
      · simp [list_deployments, hd, ha, ht, invoke_calls] at hmem
        obtain ⟨hc, hps⟩ := hmem
        subst hps
        rw [hnt]
        refine ⟨rfl, ?_⟩
        intro k v hkv hne
        simp only [List.mem_singleton, Prod.mk.injEq] at hkv
        exact absurd hkv.1 hne
      · simp [list_deployments, hd, ha] at hmem
      · simp [list_deployments, hd, ha] at hmem
      · simp [list_deployments, hd, ha, ht, invoke_calls] at hmem
        obtain ⟨hc, hps⟩ := hmem
        subst hps
        rw [hnt]
        refine ⟨rfl, ?_⟩
        intro k v hkv hne
        simp only [List.mem_cons, List.mem_singleton, List.not_mem_nil, or_false,
          Prod.mk.injEq] at hkv
        rcases hkv with ⟨hk, hv⟩ | ⟨hk, hv⟩ | ⟨hk, hv⟩
        · subst hk; decide
        · subst hk; decide
        · exact absurd hk hne
    · rw [mainRun_eq_lopi] at hmem
      rcases hr : truthy (p "registration_status")
      · simp [list_on_premises_instances, hr, ht, invoke_calls] at hmem
        obtain ⟨hc, hps⟩ := hmem
        subst hps
        rw [hnt]
        refine ⟨rfl, ?_⟩
        intro k v hkv hne
        simp only [List.mem_singleton, Prod.mk.injEq] at hkv
        exact absurd hkv.1 hne
      · simp [list_on_premises_instances, hr, ht, invoke_calls] at hmem
        obtain ⟨hc, hps⟩ := hmem
        subst hps
        rw [hnt]
        refine ⟨rfl, ?_⟩
        intro k v hkv hne
        simp only [List.mem_cons, List.mem_singleton, List.not_mem_nil, or_false,
          Prod.mk.injEq] at hkv
        rcases hkv with ⟨hk, hv⟩ | ⟨hk, hv⟩
        · subst hk; decide
        · exact absurd hk hne
  · exact absurd hmem (by simp [mainRun, hq])

/-- The six request parameter keys (besides query) read by the builders. -/
def requestKeys : List String :=
  ["next_token", "application_name", "deployment_id", "deployment_group_name",
   "instance_status_filter", "registration_status"]

/-- The request `p` with the parameter `k` set to `v`. -/
def setP (p : Params) (k : String) (v : Option String) : Params :=
  fun s => if s = k then v else p s

/-- Two requests the builders cannot distinguish: same truthiness at every
key, same value at every truthy key, and the same value at the stray
hyphenated key read by list_on_premises_instances. -/
def sameView (p₁ p₂ : Params) : Prop :=
  (∀ s, truthy (p₁ s) = truthy (p₂ s)) ∧
  (∀ s, truthy (p₂ s) = true → p₁ s = p₂ s) ∧
  p₁ "registration-status" = p₂ "registration-status"

/-- list_applications only depends on the request through its view. -/
theorem la_congr {ρ : Type} (client : Client ρ) {p₁ p₂ : Params}
    (h : sameView p₁ p₂) :
    list_applications client p₁ = list_applications client p₂ := by
  obtain ⟨h1, h2, h3⟩ := h
  rcases hnt : truthy (p₂ "next_token") <;>
    simp [list_applications, h1, h2, hnt]

/-- list_deployment_configs only depends on the request through its view. -/
theorem ldc_congr {ρ : Type} (client : Client ρ) {p₁ p₂ : Params}
    (h : sameView p₁ p₂) :
    list_deployment_configs client p₁ = list_deployment_configs client p₂ := by
  obtain ⟨h1, h2, h3⟩ := h
  rcases hnt : truthy (p₂ "next_token") <;>
    simp [list_deployment_configs, h1, h2, hnt]

/-- list_deployment_groups only depends on the request through its view. -/
theorem ldg_congr {ρ : Type} (client : Client ρ) {p₁ p₂ : Params}
    (h : sameView p₁ p₂) :
    list_deployment_groups client p₁ = list_deployment_groups client p₂ := by
  obtain ⟨h1, h2, h3⟩ := h
  rcases ha : truthy (p₂ "application_name") <;>
    rcases hnt : truthy (p₂ "next_token") <;>
      simp [list_deployment_groups, h1, h2, ha, hnt]

/-- list_deployment_instances only depends on the request through its view. -/
theorem ldi_congr {ρ : Type} (client : Client ρ) {p₁ p₂ : Params}
    (h : sameView p₁ p₂) :
    list_deployment_instances client p₁ = list_deployment_instances client p₂ := by
  obtain ⟨h1, h2, h3⟩ := h
  rcases hd : truthy (p₂ "deployment_id") <;>
    rcases hisf : truthy (p₂ "instance_status_filter") <;>
      rcases hnt : truthy (p₂ "next_token") <;>
        simp [list_deployment_instances, h1, h2, hd, hisf, hnt]

/-- list_deployments only depends on the request through its view. -/
theorem ld_congr {ρ : Type} (client : Client ρ) {p₁ p₂ : Params}
    (h : sameView p₁ p₂) :
    list_deployments client p₁ = list_deployments client p₂ := by
  obtain ⟨h1, h2, h3⟩ := h
  rcases hd : truthy (p₂ "deployment_group_name") <;>
    rcases ha : truthy (p₂ "application_name") <;>
      rcases hnt : truthy (p₂ "next_token") <;>
        simp [list_deployments, h1, h2, hd, ha, hnt]

/-- list_on_premises_instances only depends on the request through its view. -/
theorem lopi_congr {ρ : Type} (client : Client ρ) {p₁ p₂ : Params}
    (h : sameView p₁ p₂) :
    list_on_premises_instances client p₁ = list_on_premises_instances client p₂ := by
  obtain ⟨h1, h2, h3⟩ := h
  rcases hr : truthy (p₂ "registration_status") <;>
    rcases hnt : truthy (p₂ "next_token") <;>
      simp [list_on_premises_instances, h1, h2, h3, hr, hnt]

/-- C10: a request parameter set to the empty string behaves exactly like an
absent parameter, for every query kind. -/
theorem c10_empty_string_is_absent : ∀ (ρ : Type) (client : Client ρ) (q : String)
    (p : Params) (k : String),
    k ∈ requestKeys →
    mainRun ρ client q (setP p k (some "")) = mainRun ρ client q (setP p k none) := by
  intro ρ client q p k hk
  have hkr : ¬ ("registration-status" = k) := by
    simp only [requestKeys, List.mem_cons, List.mem_singleton, List.not_mem_nil,
      or_false] at hk
    rcases hk with h | h | h | h | h | h <;> subst h <;> decide
  have hview : sameView (setP p k (some "")) (setP p k none) := by
    refine ⟨?_, ?_, ?_⟩
    · intro s
      unfold setP
      by_cases hs : s = k
      · rw [if_pos hs, if_pos hs]
        decide
      · rw [if_neg hs, if_neg hs]
    · intro s hs
      unfold setP at hs ⊢
      by_cases h : s = k
      · rw [if_pos h] at hs
        exact absurd hs (by decide)
      · rw [if_neg h, if_neg h]
    · unfold setP
      rw [if_neg hkr, if_neg hkr]
  by_cases hq : queryAccepted q = true
  · have hqm : q ∈ queryChoices := of_decide_eq_true hq
    simp only [queryChoices, List.mem_cons, List.mem_singleton, List.not_mem_nil,
      or_false] at hqm
    rcases hqm with h1 | h1 | h1 | h1 | h1 | h1 <;> subst h1
    · rw [mainRun_eq_la, mainRun_eq_la]
      exact la_congr client hview
    · rw [mainRun_eq_ldc, mainRun_eq_ldc]
      exact ldc_congr client hview
    · rw [mainRun_eq_ldg, mainRun_eq_ldg]
      exact ldg_congr client hview
    · rw [mainRun_eq_ldi, mainRun_eq_ldi]
      exact ldi_congr client hview
    · rw [mainRun_eq_ld, mainRun_eq_ld]
      exact ld_congr client hview
    · rw [mainRun_eq_lopi, mainRun_eq_lopi]
      exact lopi_congr client hview
  · simp [mainRun, hq]

/-- The request supplying only next_token = "TOKEN123". -/
def reqTok : Params := fun k =>
  if k = "next_token" then some "TOKEN123" else none

/-- Witness for C3: a concrete list_applications run with
next_token = "TOKEN123" attempts exactly one call, whose parameters carry
nextToken = "TOKEN123" and no other token-shaped key. -/
theorem c3_next_token_forwarded_witness :
    ([("nextToken", some "TOKEN123")] : CallParams).lookup "nextToken" =
      some (some "TOKEN123") ∧
    (∀ k v, (k, v) ∈ ([("nextToken", some "TOKEN123")] : CallParams) →
      k ≠ "nextToken" → tokenShaped k = false) :=
  c3_next_token_forwarded Unit (okClient ()) "list_applications" reqTok
    "list_applications" [("nextToken", some "TOKEN123")] rfl (by decide)

/-- Witness for C6: the concrete list_deployment_groups run with no
parameters ends in a validation error and attempted no remote call. -/
theorem c6_validation_before_remote_witness :
    (mainRun Unit (okClient ()) "list_deployment_groups" emptyParams).calls = [] :=
  c6_validation_before_remote Unit (okClient ()) "list_deployment_groups"
    emptyParams "application_name is required" rfl

/-- Witness for C7: with a client raising "boom", the concrete
list_applications run ends in a remote error carrying "boom". -/
theorem c7_remote_error_propagates_witness :
    (mainRun Unit (errClient Unit "boom") "list_applications" emptyParams).result =
      .error (.remote "boom") :=
  c7_remote_error_propagates Unit (errClient Unit "boom") "list_applications"
    emptyParams "list_applications" [] "boom" rfl rfl

/-- Witness for C9: with a client succeeding with a fixed result, the
concrete list_applications run returns that result unmodified. -/
theorem c9_success_passthrough_witness :
    (mainRun Unit (okClient ()) "list_applications" emptyParams).result = .ok () :=
  c9_success_passthrough Unit (okClient ()) "list_applications" emptyParams
    "list_applications" [] () rfl rfl

/-- Witness for C10: setting application_name to the empty string behaves
exactly like leaving it absent for a concrete list_deployment_groups run. -/
theorem c10_empty_string_is_absent_witness :
    mainRun Unit (okClient ()) "list_deployment_groups"
        (setP emptyParams "application_name" (some "")) =
      mainRun Unit (okClient ()) "list_deployment_groups"
        (setP emptyParams "application_name" none) :=
  c10_empty_string_is_absent Unit (okClient ()) "list_deployment_groups"
    emptyParams "application_name" (by decide)

end CodedeployFacts
